import Mathlib

/-!
Verification of `link_prediction/optimization/pairwise_ranking_optimizer.py`
(classes `PairwiseRankingOptimizer` and `KelpiePairwiseRankingOptimizer`).

The Python code is shallowly embedded:
* the control flow of `train`, `epoch` and `step_on_batch` is modelled as
  executable Lean functions producing event traces;
* numpy arrays become Lean lists; the in-place shuffle and the aliasing
  structure of `train` are modelled with an explicit store of arrays;
* tensor arithmetic (`MarginRankingLoss`, regularizer values) is modelled
  over `ℚ`; the model's `forward` and the regularizer are abstract
  function parameters, since their implementations live outside this file
  of the repository.
-/

namespace PairwiseRanking

/-- Events emitted by one run of `PairwiseRankingOptimizer.epoch` /
`KelpiePairwiseRankingOptimizer.epoch` and the batch step.  Each event
carries the `batch_start` index of the batch it belongs to. -/
inductive OptEvent : Type where
  | shuffle : OptEvent
  | extract : Nat → OptEvent
  | zeroGrad : Nat → OptEvent
  | forward : Nat → Bool → OptEvent
  | backwardCall : Nat → OptEvent
  | optimStep : Nat → OptEvent
  | updateEmbeddings : Nat → OptEvent
  deriving DecidableEq, Repr

/-- Events of `step_on_batch` for the batch starting at `s`:
`optimizer.zero_grad()`, `model.forward(positive_batch)`,
`model.forward(negative_batch)`, `loss.backward()`, `optimizer.step()`. -/
def stepEvents (s : Nat) : List OptEvent :=
  [OptEvent.zeroGrad s, OptEvent.forward s true, OptEvent.forward s false,
   OptEvent.backwardCall s, OptEvent.optimStep s]

/-- The list of `batch_start` values visited by the `while batch_start <
len(training_samples)` loop of `epoch`, starting from `start` and stepping
by `batch_size` (`batch_start += batch_size`).  The loop terminates only
because `batch_size` is positive, hence the proof argument. -/
def batchStartList (len bs : Nat) (hbs : 0 < bs) (start : Nat) : List Nat :=
  if h : start < len then
    start :: batchStartList len bs hbs (start + bs)
  else
    []
termination_by len - start
decreasing_by omega

/-- Trace of the batch loop of `PairwiseRankingOptimizer.epoch`: each
iteration extracts a batch and runs `step_on_batch` on it. -/
def epochLoop (len bs : Nat) (hbs : 0 < bs) (start : Nat) : List OptEvent :=
  if h : start < len then
    (OptEvent.extract start :: stepEvents start) ++ epochLoop len bs hbs (start + bs)
  else
    []
termination_by len - start
decreasing_by omega

/-- Trace of one call of `PairwiseRankingOptimizer.epoch` on
`training_samples` of length `len`: the in-place `np.random.shuffle`
followed by the batch loop from `batch_start = 0`. -/
def epochTrace (len bs : Nat) (hbs : 0 < bs) : List OptEvent :=
  OptEvent.shuffle :: epochLoop len bs hbs 0

/-- Trace of the batch loop of `KelpiePairwiseRankingOptimizer.epoch`: same
as the plain loop, except that `self.model.update_embeddings()` is called
right after `step_on_batch` of every batch. -/
def kelpieEpochLoop (len bs : Nat) (hbs : 0 < bs) (start : Nat) : List OptEvent :=
  if h : start < len then
    (OptEvent.extract start :: stepEvents start ++ [OptEvent.updateEmbeddings start])
      ++ kelpieEpochLoop len bs hbs (start + bs)
  else
    []
termination_by len - start
decreasing_by omega

/-- Trace of one call of `KelpiePairwiseRankingOptimizer.epoch`. -/
def kelpieEpochTrace (len bs : Nat) (hbs : 0 < bs) : List OptEvent :=
  OptEvent.shuffle :: kelpieEpochLoop len bs hbs 0

/-- Recognizes `extract` events (one per processed batch). -/
def isExtract : OptEvent → Bool
  | OptEvent.extract _ => true
  | _ => false

/-- Recognizes `update_embeddings` events. -/
def isUpdateEmbeddings : OptEvent → Bool
  | OptEvent.updateEmbeddings _ => true
  | _ => false

theorem batchStartList_length (len bs : Nat) (hbs : 0 < bs) (start : Nat) :
    (batchStartList len bs hbs start).length = (len - start + bs - 1) / bs := by
  induction start using batchStartList.induct len bs hbs with
  | case1 start h ih =>
    rw [batchStartList, dif_pos h, List.length_cons, ih]
    rcases Nat.lt_or_ge (len - start) bs with hlt | hge
    · have h1 : len - (start + bs) = 0 := by omega
      have h2 : len - start + bs - 1 = (len - start - 1) + bs := by omega
      rw [h1, h2, Nat.zero_add, Nat.add_div_right _ hbs,
        Nat.div_eq_of_lt (by omega), Nat.div_eq_of_lt (by omega)]
    · have h1 : len - (start + bs) + bs - 1 = len - start - 1 := by omega
      have h2 : len - start + bs - 1 = (len - start - 1) + bs := by omega
      rw [h1, h2, Nat.add_div_right _ hbs]
  | case2 start h =>
    rw [batchStartList, dif_neg h]
    have h1 : len - start = 0 := by omega
    rw [h1, List.length_nil, Nat.zero_add, Nat.div_eq_of_lt (by omega)]

theorem epochLoop_eq_flatMap (len bs : Nat) (hbs : 0 < bs) (start : Nat) :
    epochLoop len bs hbs start =
      (batchStartList len bs hbs start).flatMap
        (fun s => OptEvent.extract s :: stepEvents s) := by
  induction start using batchStartList.induct len bs hbs with
  | case1 start h ih =>
    rw [epochLoop, dif_pos h, batchStartList, dif_pos h, List.flatMap_cons, ih]
  | case2 start h =>
    rw [epochLoop, dif_neg h, batchStartList, dif_neg h, List.flatMap_nil]

theorem kelpieEpochLoop_eq_flatMap (len bs : Nat) (hbs : 0 < bs) (start : Nat) :
    kelpieEpochLoop len bs hbs start =
      (batchStartList len bs hbs start).flatMap
        (fun s => OptEvent.extract s :: stepEvents s ++ [OptEvent.updateEmbeddings s]) := by
  induction start using batchStartList.induct len bs hbs with
  | case1 start h ih =>
    rw [kelpieEpochLoop, dif_pos h, batchStartList, dif_pos h, List.flatMap_cons, ih]
  | case2 start h =>
    rw [kelpieEpochLoop, dif_neg h, batchStartList, dif_neg h, List.flatMap_nil]

/-! ### The `train` method: validation / checkpoint schedule -/

/-- Observable events of one run of `PairwiseRankingOptimizer.train`:
running one epoch, calling `self.evaluator.eval` on the validation set,
and `torch.save` of the model state.  A checkpoint write is tagged
`some e` when it is the intermediate write inside the validation block of
epoch `e`, and `none` when it is the final write after the epoch loop. -/
inductive TrainEvent : Type where
  | epochRun : Nat → TrainEvent
  | evalCall : Nat → TrainEvent
  | checkpointWrite : Option Nat → TrainEvent
  deriving DecidableEq, Repr

/-- The events produced inside the `if evaluate_every > 0 and valid_samples
is not None and e % evaluate_every == 0` block of `train` at epoch `e`:
the evaluator call, then an intermediate checkpoint write if `save_path
is not None`. -/
def validationBlock {S : Type} (evaluate_every : Int) (save_path : Option String)
    (valid_samples : Option (List S)) (e : Nat) : List TrainEvent :=
  if 0 < evaluate_every ∧ valid_samples.isSome = true ∧ (e : Int) % evaluate_every = 0 then
    TrainEvent.evalCall e ::
      (if save_path.isSome = true then [TrainEvent.checkpointWrite (some e)] else [])
  else
    []

/-- Event trace of `PairwiseRankingOptimizer.train`: `for e in range(1,
self.epochs + 1)` runs `self.epoch(...)` and then the validation block;
after the loop, a final `torch.save` happens whenever `save_path is not
None`. -/
def trainEvents {S : Type} (epochs : Nat) (evaluate_every : Int)
    (save_path : Option String) (valid_samples : Option (List S)) : List TrainEvent :=
  ((List.range' 1 epochs).flatMap
      (fun e => TrainEvent.epochRun e :: validationBlock evaluate_every save_path valid_samples e))
    ++ (if save_path.isSome = true then [TrainEvent.checkpointWrite none] else [])

/-- Recognizes checkpoint writes (`torch.save` calls). -/
def isCheckpointWrite : TrainEvent → Bool
  | TrainEvent.checkpointWrite _ => true
  | _ => false

/-- Recognizes evaluator calls. -/
def isEvalCall : TrainEvent → Bool
  | TrainEvent.evalCall _ => true
  | _ => false

/-- The subsequence of checkpoint writes of a train trace. -/
def checkpointWrites (l : List TrainEvent) : List TrainEvent :=
  l.filter isCheckpointWrite

/-- Number of evaluator calls in a train trace. -/
def evalCallCount (l : List TrainEvent) : Nat :=
  l.countP isEvalCall

theorem validationBlock_of_nonpos {S : Type} (evaluate_every : Int)
    (save_path : Option String) (valid_samples : Option (List S)) (e : Nat)
    (hee : evaluate_every ≤ 0) :
    validationBlock evaluate_every save_path valid_samples e = [] := by
  rw [validationBlock, if_neg]
  intro hcond
  omega

theorem validationBlock_of_none {S : Type} (evaluate_every : Int)
    (save_path : Option String) (e : Nat) :
    validationBlock evaluate_every save_path (none : Option (List S)) e = [] := by
  rw [validationBlock, if_neg]
  intro hcond
  simp at hcond

theorem countP_flatMap_zero {α β : Type} (p : β → Bool) (f : α → List β) (l : List α)
    (h : ∀ a ∈ l, (f a).countP p = 0) : (l.flatMap f).countP p = 0 := by
  induction l with
  | nil => rfl
  | cons x xs ih =>
    rw [List.flatMap_cons, List.countP_append, h x (List.mem_cons_self x xs),
      ih (fun a ha => h a (List.mem_cons_of_mem x ha))]

theorem filter_flatMap_nil {α β : Type} (p : β → Bool) (f : α → List β) (l : List α)
    (h : ∀ a ∈ l, (f a).filter p = []) : (l.flatMap f).filter p = [] := by
  induction l with
  | nil => rfl
  | cons x xs ih =>
    rw [List.flatMap_cons, List.filter_append, h x (List.mem_cons_self x xs),
      ih (fun a ha => h a (List.mem_cons_of_mem x ha)), List.nil_append]

/-! ### The `step_on_batch` method: loss computation -/

/-- Result of one `step_on_batch` call: the scores and factors obtained by
forwarding the two batches, the margin-ranking target, and the three loss
values.  Tensor values are modelled over `ℚ`. -/
structure StepResult (F : Type) : Type where
  positive_scores : List ℚ
  negative_scores : List ℚ
  positive_factors : F
  negative_factors : F
  target : ℚ
  l_fit : ℚ
  l_reg : ℚ
  loss : ℚ

/-- `torch.nn.MarginRankingLoss(margin, reduction="mean")` applied to score
vectors `x1`, `x2` and a scalar target `y` (the broadcast of the
one-element target tensor): the mean over the pairs of
`max(0, -y * (x1 - x2) + margin)`. -/
def marginRankingLoss (margin : ℚ) (x1 x2 : List ℚ) (y : ℚ) : ℚ :=
  let elems := List.zipWith (fun a b => max 0 (-(y * (a - b)) + margin)) x1 x2
  elems.sum / (elems.length : ℚ)

/-- `PairwiseRankingOptimizer.step_on_batch`: forward the positive batch,
forward the negative batch, build the target tensor `[-1]`, compute the
ranking loss, the regularization term, and their sum.  The model's
`forward` and the regularizer value are abstract parameters since their
code lives outside this file. -/
def step_on_batch {B F : Type} (forward : B → List ℚ × F) (regularizer : F → ℚ)
    (margin : ℚ) (positive_batch negative_batch : B) : StepResult F :=
  let pos := forward positive_batch
  let neg := forward negative_batch
  let target : ℚ := -1
  let l_fit := marginRankingLoss margin pos.1 neg.1 target
  let l_reg := (regularizer pos.2 + regularizer neg.2) / 2
  let loss := l_fit + l_reg
  { positive_scores := pos.1, negative_scores := neg.1,
    positive_factors := pos.2, negative_factors := neg.2,
    target := target, l_fit := l_fit, l_reg := l_reg, loss := loss }

/-- The margin-ranking target tensors allocated by
`PairwiseRankingOptimizer.__init__`: none.  The constructor stores the six
hyperparameters, the corruption engine, the `MarginRankingLoss` module
(configured with the margin only), the Adam optimizer and the regularizer,
but builds no target tensor. -/
def initTargetAllocations : List ℚ :=
  []

/-- The margin-ranking target tensors allocated by one `step_on_batch`
call: `target = torch.tensor([-1], dtype=torch.float).cuda()` builds a
fresh one-element tensor of value `-1` anew inside every call. -/
def stepTargetAllocations : List ℚ :=
  [-1]

/-! ### Batch extraction and training-set augmentation -/

/-- Python slice `l[a:b]` for nonnegative bounds: the elements with indices
in `[a, b)`, clamped to the list. -/
def pySlice {α : Type} (l : List α) (a b : Nat) : List α :=
  (l.take b).drop a

/-- The `original_batch` computed by `PairwiseRankingOptimizer.extract_batch`:
`training_samples[batch_start : min(batch_start + batch_size,
len(training_samples))]`.  This is the positive slice handed to
`self.corruption_engine.corrupt_samples`. -/
def extractOriginalBatch {S : Type} (training_samples : List S)
    (batch_start batch_size : Nat) : List S :=
  pySlice training_samples batch_start
    (min (batch_start + batch_size) training_samples.length)

/-- The augmented training set built by `train`:
`np.vstack((train_samples, self.dataset.invert_samples(train_samples)))`.
`invert_samples` belongs to the `Dataset` class, outside this file, and is
kept abstract. -/
def augmentedTrainingSamples {S : Type} (invert_samples : List S → List S)
    (train_samples : List S) : List S :=
  train_samples ++ invert_samples train_samples

/-! ### Constructor: hyperparameter lookups -/

/-- Modelled from the spec: the hyperparameter key constants imported from
`model.py` (not part of this file); the spec lists the recognized keys as
batch size, learning rate, epoch count, margin, negative-sample ratio and
regularization weight. -/
def BATCH_SIZE : String := "batch_size"

/-- Modelled from the spec: the learning-rate key from `model.py`. -/
def LEARNING_RATE : String := "learning_rate"

/-- Modelled from the spec: the epoch-count key from `model.py`. -/
def EPOCHS : String := "epochs"

/-- Modelled from the spec: the margin key from `model.py`. -/
def MARGIN : String := "margin"

/-- Modelled from the spec: the negative-sample ratio key from `model.py`
(the source constant is named `NEGATIVE_SAMPLES_RATIO`). -/
def NEGATIVE_SAMPLES_RATIO_KEY : String := "negative_samples_ratio"

/-- Modelled from the spec: the regularization-weight key from `model.py`. -/
def REGULARIZER_WEIGHT : String := "regularizer_weight"

/-- The six keys read by `PairwiseRankingOptimizer.__init__`. -/
def requiredKeys : List String :=
  [ BATCH_SIZE, LEARNING_RATE, EPOCHS, MARGIN, NEGATIVE_SAMPLES_RATIO_KEY,
    REGULARIZER_WEIGHT]

/-- A Python dict subscript `hp[k]`: the value when the key is present,
and a `KeyError` carrying the key otherwise. -/
def dictGet (hp : List (String × ℚ)) (k : String) : Except String ℚ :=
  match hp.find? (fun p => p.1 == k) with
  | some p => Except.ok p.2
  | none => Except.error k

/-- The hyperparameter fields set by `PairwiseRankingOptimizer.__init__`. -/
structure PROptHyperparams : Type where
  batch_size : ℚ
  learning_rate : ℚ
  epochs : ℚ
  margin : ℚ
  negative_samples_ratio : ℚ
  regularizer_weight : ℚ
  deriving DecidableEq, Repr

/-- The six dict subscripts of `PairwiseRankingOptimizer.__init__`, in
source order; any `KeyError` aborts construction. -/
def pairwiseRankingInit (hp : List (String × ℚ)) : Except String PROptHyperparams :=
  match dictGet hp BATCH_SIZE with
  | Except.error e => Except.error e
  | Except.ok batch_size =>
    match dictGet hp LEARNING_RATE with
    | Except.error e => Except.error e
    | Except.ok learning_rate =>
      match dictGet hp EPOCHS with
      | Except.error e => Except.error e
      | Except.ok epochs =>
        match dictGet hp MARGIN with
        | Except.error e => Except.error e
        | Except.ok margin =>
          match dictGet hp NEGATIVE_SAMPLES_RATIO_KEY with
          | Except.error e => Except.error e
          | Except.ok nsr =>
            match dictGet hp REGULARIZER_WEIGHT with
            | Except.error e => Except.error e
            | Except.ok regularizer_weight =>
              Except.ok
                ⟨batch_size, learning_rate, epochs, margin, nsr, regularizer_weight⟩

/-! ### Array store: aliasing effects of `train` -/

/-- A store of numpy arrays; a reference is an index into the store. -/
abbrev Store (S : Type) : Type :=
  List (List S)

/-- Read the array at reference `r`. -/
def storeGet {S : Type} (st : Store S) (r : Nat) : List S :=
  List.getD st r []

/-- Overwrite the array at reference `r` in place. -/
def storeSet {S : Type} (st : Store S) (r : Nat) (a : List S) : Store S :=
  List.set st r a

/-- Allocate a fresh array: `np.vstack` returns a new array, distinct from
every existing reference. -/
def storeAlloc {S : Type} (st : Store S) (a : List S) : Store S × Nat :=
  (st ++ [a], st.length)

/-- `np.random.shuffle(arr)`: permute the array at `r` in place; the
permutation actually drawn is an abstract parameter. -/
def npShuffle {S : Type} (perm : List S → List S) (st : Store S) (r : Nat) : Store S :=
  storeSet st r (perm (storeGet st r))

/-- The array effects of `PairwiseRankingOptimizer.train` on the store:
read the caller's `train_samples` at `train_ref`, allocate the fresh
stacked array `np.vstack((train_samples, invert_samples(train_samples)))`,
then shuffle that internal array in place once per epoch (`shuffles` holds
the permutation drawn in each epoch). -/
def trainArrayEffects {S : Type} (invert_samples : List S → List S)
    (shuffles : List (List S → List S)) (st : Store S) (train_ref : Nat) : Store S :=
  let train_samples := storeGet st train_ref
  let alloc := storeAlloc st (train_samples ++ invert_samples train_samples)
  shuffles.foldl (fun acc perm => npShuffle perm acc alloc.2) alloc.1

theorem storeGet_append {S : Type} (st : Store S) (a : List S) (r : Nat)
    (h : r < st.length) : storeGet (st ++ [a]) r = storeGet st r := by
  unfold storeGet
  rw [List.getD_eq_getElem?_getD, List.getD_eq_getElem?_getD,
    List.getElem?_append_left h]

theorem storeGet_storeSet_ne {S : Type} (st : Store S) (r r' : Nat) (a : List S)
    (h : r ≠ r') : storeGet (storeSet st r a) r' = storeGet st r' := by
  unfold storeGet storeSet
  rw [List.getD_eq_getElem?_getD, List.getD_eq_getElem?_getD,
    List.getElem?_set_ne h]

theorem foldl_npShuffle_get_ne {S : Type} (r r' : Nat) (h : r ≠ r')
    (ps : List (List S → List S)) (st : Store S) :
    storeGet (ps.foldl (fun acc perm => npShuffle perm acc r) st) r' = storeGet st r' := by
  induction ps generalizing st with
  | nil => rfl
  | cons p ps ih =>
    rw [List.foldl_cons, ih, npShuffle, storeGet_storeSet_ne st r r' _ h]

/-! ### Claim theorems -/

/-- Claim C3, counterexample to the claim as stated: the target tensor is
not fixed once at optimizer construction.  The constructor allocates no
target tensor at all, while every `step_on_batch` call allocates a fresh
one; over a concrete run of two batch steps, two target tensors are
created and none of them at construction — refuting "a constant tensor
fixed once at optimizer construction" (one allocation, at construction,
none per call). -/
theorem claim_C3_counterexample :
    initTargetAllocations = [] ∧
    (initTargetAllocations ++ stepTargetAllocations ++ stepTargetAllocations).length = 2 ∧
    ¬ (initTargetAllocations.length = 1 ∧ stepTargetAllocations = []) := by
  refine ⟨rfl, rfl, ?_⟩
  rintro ⟨h1, h2⟩
  exact Nat.noConfusion h1

/-- Claim C3, amended: the margin-ranking target is not stored at
optimizer construction but built afresh inside every `step_on_batch` call
with the same constant value `-1`: it does not depend on the batches, so
every call of `step_on_batch` uses the same constant target with the same
fixed polarity when computing the ranking loss. -/
theorem claim_C3_target_constant {B F : Type} (forward : B → List ℚ × F)
    (regularizer : F → ℚ) (margin : ℚ) (pb nb pb' nb' : B) :
    initTargetAllocations = [] ∧
    stepTargetAllocations = [-1] ∧
    (step_on_batch forward regularizer margin pb nb).target = -1 ∧
    (step_on_batch forward regularizer margin pb nb).target =
      (step_on_batch forward regularizer margin pb' nb').target :=
  ⟨rfl, rfl, rfl, rfl⟩

/-- Claim C4: `step_on_batch` returns the margin-ranking loss of the
positive and negative scores plus `(reg(positive_factors) +
reg(negative_factors)) / 2`, where the scores and factors are exactly the
results of forwarding the positive batch and the negative batch through
the model. -/
theorem claim_C4_loss_formula {B F : Type} (forward : B → List ℚ × F)
    (regularizer : F → ℚ) (margin : ℚ) (pb nb : B) :
    (step_on_batch forward regularizer margin pb nb).loss =
      marginRankingLoss margin (forward pb).1 (forward nb).1 (-1)
        + (regularizer (forward pb).2 + regularizer (forward nb).2) / 2 ∧
    (step_on_batch forward regularizer margin pb nb).positive_scores = (forward pb).1 ∧
    (step_on_batch forward regularizer margin pb nb).negative_scores = (forward nb).1 ∧
    (step_on_batch forward regularizer margin pb nb).positive_factors = (forward pb).2 ∧
    (step_on_batch forward regularizer margin pb nb).negative_factors = (forward nb).2 :=
  ⟨rfl, rfl, rfl, rfl, rfl⟩

/-- Claim C6: for `0 ≤ batch_start < len(training_samples)` and
`batch_size ≥ 1`, the positive slice passed to the corruption engine is
exactly the rows in `[batch_start, min(batch_start + batch_size, len))`,
its length is at most `batch_size`, and the final batch is truncated,
never padded. -/
theorem claim_C6_extract_batch_slice {S : Type} (l : List S) (a bs : Nat)
    (ha : a < l.length) (hbs : 1 ≤ bs) :
    extractOriginalBatch l a bs = (l.drop a).take bs ∧
    (extractOriginalBatch l a bs).length = min bs (l.length - a) ∧
    (extractOriginalBatch l a bs).length ≤ bs := by
  have heq : extractOriginalBatch l a bs = (l.drop a).take bs := by
    rw [extractOriginalBatch, pySlice, List.drop_take]
    rw [List.take_eq_take]
    rw [List.length_drop]
    omega
  refine ⟨heq, ?_, ?_⟩
  · rw [heq, List.length_take, List.length_drop]
  · rw [heq, List.length_take]
    omega

/-- Witness for C6: a concrete final batch, truncated to the 2 remaining
rows. -/
theorem claim_C6_witness :
    3 < ([0, 1, 2, 3, 4] : List Nat).length ∧ 1 ≤ 3 ∧
    (extractOriginalBatch ([0, 1, 2, 3, 4] : List Nat) 3 3
        = (([0, 1, 2, 3, 4] : List Nat).drop 3).take 3 ∧
      (extractOriginalBatch ([0, 1, 2, 3, 4] : List Nat) 3 3).length
        = min 3 (([0, 1, 2, 3, 4] : List Nat).length - 3) ∧
      (extractOriginalBatch ([0, 1, 2, 3, 4] : List Nat) 3 3).length ≤ 3) :=
  ⟨by decide, by decide,
    claim_C6_extract_batch_slice ([0, 1, 2, 3, 4] : List Nat) 3 3 (by decide) (by decide)⟩

/-- Claim C9: `train` never mutates the caller's `train_samples` array:
the stacked training set is a fresh allocation and the per-epoch in-place
shuffles hit only that internal array, so after `train`'s array effects
the caller's reference still holds its original contents. -/
theorem claim_C9_train_samples_not_mutated {S : Type}
    (invert_samples : List S → List S) (shuffles : List (List S → List S))
    (st : Store S) (train_ref : Nat) (h : train_ref < st.length) :
    storeGet (trainArrayEffects invert_samples shuffles st train_ref) train_ref
      = storeGet st train_ref := by
  unfold trainArrayEffects storeAlloc
  rw [foldl_npShuffle_get_ne st.length train_ref (Nat.ne_of_lt h).symm]
  exact storeGet_append st _ train_ref h

/-- Witness for C9: a concrete two-array store; the caller's array at
reference 0 is unchanged by a run with one reversing shuffle. -/
theorem claim_C9_witness :
    0 < ([[1, 2], [3]] : Store Nat).length ∧
    storeGet
        (trainArrayEffects (fun l => l) [fun l => l.reverse]
          ([[1, 2], [3]] : Store Nat) 0) 0
      = storeGet ([[1, 2], [3]] : Store Nat) 0 :=
  ⟨by decide,
    claim_C9_train_samples_not_mutated (fun l => l) [fun l => l.reverse]
      ([[1, 2], [3]] : Store Nat) 0 (by decide)⟩

theorem pairwiseRankingInit_ok_lookups (hp : List (String × ℚ)) (st : PROptHyperparams)
    (h : pairwiseRankingInit hp = Except.ok st) :
    dictGet hp BATCH_SIZE = Except.ok st.batch_size ∧
    dictGet hp LEARNING_RATE = Except.ok st.learning_rate ∧
    dictGet hp EPOCHS = Except.ok st.epochs ∧
    dictGet hp MARGIN = Except.ok st.margin ∧
    dictGet hp NEGATIVE_SAMPLES_RATIO_KEY = Except.ok st.negative_samples_ratio ∧
    dictGet hp REGULARIZER_WEIGHT = Except.ok st.regularizer_weight := by
  rw [pairwiseRankingInit] at h
  cases h1 : dictGet hp BATCH_SIZE with
  | error e => rw [h1] at h; exact (Except.noConfusion h)
  | ok v1 =>
  rw [h1] at h
  cases h2 : dictGet hp LEARNING_RATE with
  | error e => rw [h2] at h; exact (Except.noConfusion h)
  | ok v2 =>
  rw [h2] at h
  cases h3 : dictGet hp EPOCHS with
  | error e => rw [h3] at h; exact (Except.noConfusion h)
  | ok v3 =>
  rw [h3] at h
  cases h4 : dictGet hp MARGIN with
  | error e => rw [h4] at h; exact (Except.noConfusion h)
  | ok v4 =>
  rw [h4] at h
  cases h5 : dictGet hp NEGATIVE_SAMPLES_RATIO_KEY with
  | error e => rw [h5] at h; exact (Except.noConfusion h)
  | ok v5 =>
  rw [h5] at h
  cases h6 : dictGet hp REGULARIZER_WEIGHT with
  | error e => rw [h6] at h; exact (Except.noConfusion h)
  | ok v6 =>
  rw [h6] at h
  injection h with h
  subst h
  exact ⟨rfl, rfl, rfl, rfl, rfl, rfl⟩

/-- Claim C8: all six hyperparameter keys are required: when any of them
is missing from the mapping the lookup raises and construction aborts with
an error, and when construction succeeds every stored hyperparameter is
exactly the dict's value for its key — the core substitutes no default. -/
theorem claim_C8_required_keys :
    (∀ (hp : List (String × ℚ)) (k : String), k ∈ requiredKeys →
        dictGet hp k = Except.error k →
        ∃ e, pairwiseRankingInit hp = Except.error e) ∧
    (∀ (hp : List (String × ℚ)) (st : PROptHyperparams),
        pairwiseRankingInit hp = Except.ok st →
        dictGet hp BATCH_SIZE = Except.ok st.batch_size ∧
        dictGet hp LEARNING_RATE = Except.ok st.learning_rate ∧
        dictGet hp EPOCHS = Except.ok st.epochs ∧
        dictGet hp MARGIN = Except.ok st.margin ∧
        dictGet hp NEGATIVE_SAMPLES_RATIO_KEY = Except.ok st.negative_samples_ratio ∧
        dictGet hp REGULARIZER_WEIGHT = Except.ok st.regularizer_weight) := by
  constructor
  · intro hp k hk herr
    cases hini : pairwiseRankingInit hp with
    | error e => exact ⟨e, rfl⟩
    | ok st =>
      exfalso
      have hl := pairwiseRankingInit_ok_lookups hp st hini
      simp only [requiredKeys, List.mem_cons, List.not_mem_nil, or_false] at hk
      rcases hk with rfl | rfl | rfl | rfl | rfl | rfl
      · rw [hl.1] at herr; exact Except.noConfusion herr
      · rw [hl.2.1] at herr; exact Except.noConfusion herr
      · rw [hl.2.2.1] at herr; exact Except.noConfusion herr
      · rw [hl.2.2.2.1] at herr; exact Except.noConfusion herr
      · rw [hl.2.2.2.2.1] at herr; exact Except.noConfusion herr
      · rw [hl.2.2.2.2.2] at herr; exact Except.noConfusion herr
  · exact pairwiseRankingInit_ok_lookups

/-- Witness for C8: a mapping missing `margin` aborts construction; a
complete mapping succeeds, and each stored field is the dict's value. -/
theorem claim_C8_witness :
    (MARGIN ∈ requiredKeys ∧
      dictGet [(BATCH_SIZE, 32), (LEARNING_RATE, 1), (EPOCHS, 5)] MARGIN
        = Except.error MARGIN ∧
      ∃ e, pairwiseRankingInit [(BATCH_SIZE, 32), (LEARNING_RATE, 1), (EPOCHS, 5)]
        = Except.error e) ∧
    (pairwiseRankingInit
        [(BATCH_SIZE, 32), (LEARNING_RATE, 1), (EPOCHS, 5), (MARGIN, 2),
         (NEGATIVE_SAMPLES_RATIO_KEY, 3), (REGULARIZER_WEIGHT, 4)]
        = Except.ok ⟨32, 1, 5, 2, 3, 4⟩ ∧
      dictGet
          [(BATCH_SIZE, 32), (LEARNING_RATE, 1), (EPOCHS, 5), (MARGIN, 2),
           (NEGATIVE_SAMPLES_RATIO_KEY, 3), (REGULARIZER_WEIGHT, 4)] BATCH_SIZE
        = Except.ok (32 : ℚ)) :=
  ⟨⟨by decide, rfl,
    claim_C8_required_keys.1 [(BATCH_SIZE, 32), (LEARNING_RATE, 1), (EPOCHS, 5)]
      MARGIN (by decide) rfl⟩,
   ⟨rfl,
    (claim_C8_required_keys.2
        [(BATCH_SIZE, 32), (LEARNING_RATE, 1), (EPOCHS, 5), (MARGIN, 2),
         (NEGATIVE_SAMPLES_RATIO_KEY, 3), (REGULARIZER_WEIGHT, 4)]
        ⟨32, 1, 5, 2, 3, 4⟩ rfl).1⟩⟩

theorem countP_flatMap_one {α β : Type} (p : β → Bool) (f : α → List β) (l : List α)
    (h : ∀ a ∈ l, (f a).countP p = 1) : (l.flatMap f).countP p = l.length := by
  induction l with
  | nil => rfl
  | cons x xs ih =>
    rw [List.flatMap_cons, List.countP_append, h x (List.mem_cons_self x xs),
      ih (fun a ha => h a (List.mem_cons_of_mem x ha)), List.length_cons]
    omega

theorem epochLoop_countP_extract (len bs : Nat) (hbs : 0 < bs) (start : Nat) :
    (epochLoop len bs hbs start).countP isExtract
      = (batchStartList len bs hbs start).length := by
  rw [epochLoop_eq_flatMap]
  exact countP_flatMap_one _ _ _ (fun s _ => rfl)

theorem epochTrace_countP_extract (len bs : Nat) (hbs : 0 < bs) :
    (epochTrace len bs hbs).countP isExtract = (len + bs - 1) / bs := by
  rw [epochTrace, List.countP_cons_of_neg _ _ (by exact fun hc => Bool.noConfusion hc),
    epochLoop_countP_extract, batchStartList_length, Nat.sub_zero]

/-- Claim C5: the augmented training set built by `train` has exactly
twice the size of the input (given that `invert_samples` returns one
inverted row per input row), one epoch over `n` samples with batch size
`b` processes exactly `⌈n / b⌉ = (n + b - 1) / b` batches, and in
particular 100 positive samples yield 200 augmented samples, 7 batches
with `batch_size = 32`, and a final batch of 8 samples. -/
theorem claim_C5_augmentation_and_batch_count :
    (∀ (S : Type) (invert_samples : List S → List S) (train_samples : List S),
        (∀ l : List S, (invert_samples l).length = l.length) →
        train_samples ≠ [] →
        (augmentedTrainingSamples invert_samples train_samples).length
          = 2 * train_samples.length) ∧
    (∀ (n b : Nat) (hb : 0 < b),
        (epochTrace n b hb).countP isExtract = (n + b - 1) / b) ∧
    (∀ hb : 0 < 32, (epochTrace 200 32 hb).countP isExtract = 7) ∧
    (∀ (S : Type) (l : List S), l.length = 200 →
        (extractOriginalBatch l 192 32).length = 8) := by
  refine ⟨?_, ?_, ?_, ?_⟩
  · intro S invert_samples train_samples hinv hne
    rw [augmentedTrainingSamples, List.length_append, hinv]
    omega
  · intro n b hb
    exact epochTrace_countP_extract n b hb
  · intro hb
    rw [epochTrace_countP_extract]
  · intro S l hl
    rw [extractOriginalBatch, pySlice, List.length_drop, List.length_take, hl]
    omega

/-- Witness for C5: 100 concrete samples with a length-preserving
inversion double to 200; the epoch over 200 samples with batch size 32
runs 7 batches; the last slice has 8 rows. -/
theorem claim_C5_witness :
    (∀ l : List Nat, l.reverse.length = l.length) ∧
    List.range 100 ≠ [] ∧
    (augmentedTrainingSamples List.reverse (List.range 100)).length
      = 2 * (List.range 100).length ∧
    (epochTrace 7 2 (by omega)).countP isExtract = (7 + 2 - 1) / 2 ∧
    (epochTrace 200 32 (by omega)).countP isExtract = 7 ∧
    (List.range 200).length = 200 ∧
    (extractOriginalBatch (List.range 200) 192 32).length = 8 :=
  ⟨fun l => List.length_reverse l, by simp,
    claim_C5_augmentation_and_batch_count.1 Nat List.reverse (List.range 100)
      (fun l => List.length_reverse l) (by simp),
    claim_C5_augmentation_and_batch_count.2.1 7 2 (by omega),
    claim_C5_augmentation_and_batch_count.2.2.1 (by omega),
    by simp,
    claim_C5_augmentation_and_batch_count.2.2.2 Nat (List.range 200) (by simp)⟩

/-- Claim C1: with `evaluate_every = 2`, 5 epochs, `save_path` and
`valid_samples` provided, `train` performs exactly the intermediate
checkpoint writes of epochs 2 and 4 plus one final write after epoch 5 —
3 writes in total; and for every run with `save_path` provided, the last
event of `train` is the final checkpoint write, regardless of the
validation schedule. -/
theorem claim_C1_checkpoint_schedule :
    (∀ (S : Type) (sp : String) (v : List S),
        checkpointWrites (trainEvents 5 2 (some sp) (some v)) =
          [TrainEvent.checkpointWrite (some 2), TrainEvent.checkpointWrite (some 4),
           TrainEvent.checkpointWrite none]) ∧
    (∀ (S : Type) (epochs : Nat) (evaluate_every : Int) (sp : String)
        (valid_samples : Option (List S)),
        (trainEvents epochs evaluate_every (some sp) valid_samples).getLast?
          = some (TrainEvent.checkpointWrite none)) := by
  constructor
  · intro S sp v
    rfl
  · intro S epochs evaluate_every sp valid_samples
    rw [trainEvents, if_pos (show (some sp).isSome = true from rfl)]
    exact List.getLast?_concat _

/-- Claim C7: with `evaluate_every ≤ 0` (for instance the default `-1`),
the evaluator is never invoked, regardless of `valid_samples`. -/
theorem claim_C7_eval_never_invoked {S : Type} (epochs : Nat) (evaluate_every : Int)
    (save_path : Option String) (valid_samples : Option (List S))
    (hee : evaluate_every ≤ 0) :
    evalCallCount (trainEvents epochs evaluate_every save_path valid_samples) = 0 := by
  rw [evalCallCount, trainEvents, List.countP_append]
  have h1 : ((List.range' 1 epochs).flatMap
      (fun e => TrainEvent.epochRun e ::
        validationBlock evaluate_every save_path valid_samples e)).countP isEvalCall = 0 := by
    apply countP_flatMap_zero
    intro e he
    rw [List.countP_cons_of_neg _ _ (fun hc => Bool.noConfusion hc),
      validationBlock_of_nonpos _ _ _ _ hee]
    rfl
  have h2 : (if (save_path.isSome = true) then [TrainEvent.checkpointWrite none]
      else ([] : List TrainEvent)).countP isEvalCall = 0 := by
    cases save_path with
    | none => rfl
    | some sp => rfl
  rw [h1, h2]

/-- Witness for C7: three epochs with the default `evaluate_every = -1`
and a validation set present never call the evaluator. -/
theorem claim_C7_witness :
    (-1 : Int) ≤ 0 ∧
    evalCallCount (trainEvents 3 (-1) (some "path") (some [(1 : Nat), 2, 3])) = 0 :=
  ⟨by decide,
    claim_C7_eval_never_invoked 3 (-1) (some "path") (some [(1 : Nat), 2, 3]) (by decide)⟩

/-- Claim C10: with `evaluate_every > 0` but `valid_samples = None`, the
validation block is silently skipped in every epoch (the trace is total:
no error is raised): no evaluator call happens and no intermediate
checkpoint is written — the only checkpoint write is the single final one
when `save_path` is provided, and none otherwise. -/
theorem claim_C10_missing_valid_skips {S : Type} (epochs : Nat)
    (evaluate_every : Int) (save_path : Option String)
    (hee : 0 < evaluate_every) :
    evalCallCount (trainEvents epochs evaluate_every save_path (none : Option (List S))) = 0 ∧
    checkpointWrites (trainEvents epochs evaluate_every save_path (none : Option (List S)))
      = (if save_path.isSome = true then [TrainEvent.checkpointWrite none] else []) := by
  constructor
  · rw [evalCallCount, trainEvents, List.countP_append]
    have h1 : ((List.range' 1 epochs).flatMap
        (fun e => TrainEvent.epochRun e ::
          validationBlock evaluate_every save_path (none : Option (List S)) e)).countP
          isEvalCall = 0 := by
      apply countP_flatMap_zero
      intro e he
      rw [List.countP_cons_of_neg _ _ (fun hc => Bool.noConfusion hc),
        validationBlock_of_none]
      rfl
    have h2 : (if (save_path.isSome = true) then [TrainEvent.checkpointWrite none]
        else ([] : List TrainEvent)).countP isEvalCall = 0 := by
      cases save_path with
      | none => rfl
      | some sp => rfl
    rw [h1, h2]
  · rw [checkpointWrites, trainEvents, List.filter_append]
    have h1 : ((List.range' 1 epochs).flatMap
        (fun e => TrainEvent.epochRun e ::
          validationBlock evaluate_every save_path (none : Option (List S)) e)).filter
          isCheckpointWrite = [] := by
      apply filter_flatMap_nil
      intro e he
      rw [validationBlock_of_none]
      rfl
    rw [h1, List.nil_append]
    cases save_path with
    | none => rfl
    | some sp => rfl

/-- Witness for C10: four epochs, `evaluate_every = 2`, a save path but no
validation set: zero evaluator calls and exactly the one final write. -/
theorem claim_C10_witness :
    (0 : Int) < 2 ∧
    (evalCallCount (trainEvents 4 2 (some "path") (none : Option (List Nat))) = 0 ∧
      checkpointWrites (trainEvents 4 2 (some "path") (none : Option (List Nat)))
        = (if (some "path").isSome = true then [TrainEvent.checkpointWrite none] else [])) :=
  ⟨by decide, @claim_C10_missing_valid_skips Nat 4 2 (some "path") (by decide)⟩

/-- Claim C2: in the Kelpie epoch over `N` batches,
`model.update_embeddings()` runs exactly `N` times — once per batch, and
the full trace shows each invocation strictly after that batch's
`optimizer.step()` (the parameter update ending `step_on_batch`) and
before the next batch's extraction and forward passes. -/
theorem claim_C2_update_embeddings_per_batch (len bs : Nat) (hbs : 0 < bs) :
    (kelpieEpochTrace len bs hbs).countP isUpdateEmbeddings
      = (batchStartList len bs hbs 0).length ∧
    (kelpieEpochTrace len bs hbs).countP isExtract
      = (batchStartList len bs hbs 0).length ∧
    kelpieEpochTrace len bs hbs
      = OptEvent.shuffle ::
          (batchStartList len bs hbs 0).flatMap
            (fun s =>
              [OptEvent.extract s, OptEvent.zeroGrad s, OptEvent.forward s true,
               OptEvent.forward s false, OptEvent.backwardCall s, OptEvent.optimStep s,
               OptEvent.updateEmbeddings s]) := by
  refine ⟨?_, ?_, ?_⟩
  · rw [kelpieEpochTrace, List.countP_cons_of_neg _ _ (fun hc => Bool.noConfusion hc),
      kelpieEpochLoop_eq_flatMap]
    exact countP_flatMap_one _ _ _ (fun s _ => rfl)
  · rw [kelpieEpochTrace, List.countP_cons_of_neg _ _ (fun hc => Bool.noConfusion hc),
      kelpieEpochLoop_eq_flatMap]
    exact countP_flatMap_one _ _ _ (fun s _ => rfl)
  · rw [kelpieEpochTrace, kelpieEpochLoop_eq_flatMap]
    rfl

/-- Witness for C2: 5 samples with batch size 2 make 3 batches and exactly
3 `update_embeddings` calls. -/
theorem claim_C2_witness :
    0 < 2 ∧
    (kelpieEpochTrace 5 2 (by omega)).countP isUpdateEmbeddings
      = (batchStartList 5 2 (by omega) 0).length ∧
    (batchStartList 5 2 (by omega) 0).length = 3 :=
  ⟨by decide, (claim_C2_update_embeddings_per_batch 5 2 (by omega)).1,
    by rw [batchStartList_length]⟩

end PairwiseRanking
